import Mathlib

/-!
Verification development for the inertial-only stationary initializer
(`ov_core::InertialInitializer`).

The repository ships only the class declaration
(`src/ov_core/src/init/InertialInitializer.h`); the bodies of `feed_imu`
and `initialize_with_imu` are not part of the sources.  Their behaviour is
therefore modelled from the design specification (windowed variance test,
gravity alignment, state solver), over exact real arithmetic.
-/

open scoped Classical

noncomputable section

namespace OVCore

/-- A 3-vector with real components, standing in for `Eigen::Matrix<double,3,1>`. -/
structure V3 where
  x : ℝ
  y : ℝ
  z : ℝ

/-- The zero 3-vector. -/
def vzero : V3 := ⟨0, 0, 0⟩

/-- Componentwise addition. -/
def vadd (a b : V3) : V3 := ⟨a.x + b.x, a.y + b.y, a.z + b.z⟩

/-- Componentwise subtraction. -/
def vsub (a b : V3) : V3 := ⟨a.x - b.x, a.y - b.y, a.z - b.z⟩

/-- Scalar multiple. -/
def smul (c : ℝ) (a : V3) : V3 := ⟨c * a.x, c * a.y, c * a.z⟩

/-- Negation. -/
def vneg (a : V3) : V3 := ⟨-a.x, -a.y, -a.z⟩

/-- Euclidean inner product. -/
def dot (a b : V3) : ℝ := a.x * b.x + a.y * b.y + a.z * b.z

/-- Cross product. -/
def cross (a b : V3) : V3 :=
  ⟨a.y * b.z - a.z * b.y, a.z * b.x - a.x * b.z, a.x * b.y - a.y * b.x⟩

/-- Squared Euclidean norm. -/
def normSq (a : V3) : ℝ := dot a a

/-- Euclidean norm. -/
def vnorm (a : V3) : ℝ := Real.sqrt (normSq a)

/-- Normalization to a unit vector (maps the zero vector to itself, since
real division by zero yields zero). -/
def vnormalize (a : V3) : V3 := smul (1 / vnorm a) a

/-- A quaternion stored as a 4-vector `(w, x, y, z)` with `w` the scalar part,
standing in for `Eigen::Matrix<double,4,1>`. -/
structure Quat4 where
  w : ℝ
  x : ℝ
  y : ℝ
  z : ℝ

/-- The vector (imaginary) part of a quaternion. -/
def qvec (q : Quat4) : V3 := ⟨q.x, q.y, q.z⟩

/-- Squared quaternion norm. -/
def qnormSq (q : Quat4) : ℝ := q.w ^ 2 + q.x ^ 2 + q.y ^ 2 + q.z ^ 2

/-- Quaternion normalization. -/
def qnormalize (q : Quat4) : Quat4 :=
  ⟨q.w / Real.sqrt (qnormSq q), q.x / Real.sqrt (qnormSq q),
   q.y / Real.sqrt (qnormSq q), q.z / Real.sqrt (qnormSq q)⟩

/-- The identity rotation as a quaternion. -/
def idQuat : Quat4 := ⟨1, 0, 0, 0⟩

/-- Modelled from the spec: a deterministic choice of a unit axis orthogonal
to `v`, used for the degenerate anti-parallel gravity alignment (a 180-degree
rotation about "an arbitrary axis orthogonal to gravity"). -/
def orthoAxis (v : V3) : V3 :=
  if v.x = 0 ∧ v.y = 0 then ⟨1, 0, 0⟩ else vnormalize ⟨-v.y, v.x, 0⟩

/-- Modelled from the spec: the rotation mapping unit vector `u` (the
configured world-frame gravity direction) onto unit vector `v` (the measured
body-frame gravity direction), built as the minimal unit quaternion
`(1 + u·v, u×v)` normalized; the anti-parallel degenerate case is
special-cased as a 180-degree rotation about an axis orthogonal to `u`. -/
def alignQuat (u v : V3) : Quat4 :=
  if cross u v = vzero ∧ dot u v < 0 then
    ⟨0, (orthoAxis u).x, (orthoAxis u).y, (orthoAxis u).z⟩
  else
    qnormalize ⟨1 + dot u v, (cross u v).x, (cross u v).y, (cross u v).z⟩

/-- A single imu measurement (time, wm, am), `InertialInitializer::IMUDATA`. -/
structure IMUDATA where
  timestamp : ℝ
  wm : V3
  am : V3

/-- The initializer state: the construction-time configuration
(`_gravity`, `_window_length`, `_imu_excite_threshold`) together with the
history of IMU messages `imu_data`. -/
structure InertialInitializer where
  gravity : V3
  window_length : ℝ
  imu_excite_threshold : ℝ
  imu_data : List IMUDATA

/-- Keep only the entries within `horizon` seconds of `tnow` (eviction of
entries older than the retention horizon behind the newest sample). -/
def trimOld (tnow horizon : ℝ) : List IMUDATA → List IMUDATA
  | [] => []
  | d :: rest =>
      if tnow - d.timestamp ≤ horizon then d :: trimOld tnow horizon rest
      else trimOld tnow horizon rest

/-- Modelled from the spec: the body of `feed_imu` is not under `src/`
(only its declaration in `InertialInitializer.h` is).  Per the spec it
appends the incoming reading to the ordered buffer and may evict entries
older than the retention horizon of `2 × window_length` seconds behind the
newest sample. -/
def feed_imu (s : InertialInitializer) (timestamp : ℝ) (wm am : V3) :
    InertialInitializer :=
  { s with imu_data := trimOld timestamp (2 * s.window_length) (s.imu_data ++ [⟨timestamp, wm, am⟩]) }

/-- Timestamp of the newest (last) buffered sample; 0 on an empty buffer. -/
def newestTime : List IMUDATA → ℝ
  | [] => 0
  | [d] => d.timestamp
  | _ :: rest => newestTime rest

/-- Timestamp of the oldest (first) buffered sample; 0 on an empty buffer. -/
def oldestTime : List IMUDATA → ℝ
  | [] => 0
  | d :: _ => d.timestamp

/-- Samples in the trailing window `(tnow − wl, tnow]`. -/
def windowRecentOf (tnow wl : ℝ) : List IMUDATA → List IMUDATA
  | [] => []
  | d :: rest =>
      if tnow - wl < d.timestamp ∧ d.timestamp ≤ tnow then
        d :: windowRecentOf tnow wl rest
      else windowRecentOf tnow wl rest

/-- Samples in the preceding window `[tnow − 2·wl, tnow − wl]` (closed at the
boundary instant, which belongs to the quiet window). -/
def windowPriorOf (tnow wl : ℝ) : List IMUDATA → List IMUDATA
  | [] => []
  | d :: rest =>
      if tnow - 2 * wl ≤ d.timestamp ∧ d.timestamp ≤ tnow - wl then
        d :: windowPriorOf tnow wl rest
      else windowPriorOf tnow wl rest

/-- The most recent detection window of the buffer. -/
def window_recent (s : InertialInitializer) : List IMUDATA :=
  windowRecentOf (newestTime s.imu_data) s.window_length s.imu_data

/-- The prior (candidate quiet) detection window of the buffer. -/
def window_prior (s : InertialInitializer) : List IMUDATA :=
  windowPriorOf (newestTime s.imu_data) s.window_length s.imu_data

/-- Sum of a list of 3-vectors. -/
def vsum : List V3 → V3
  | [] => vzero
  | v :: rest => vadd v (vsum rest)

/-- Sum of a list of reals. -/
def sumR : List ℝ → ℝ
  | [] => 0
  | r :: rest => r + sumR rest

/-- Sample mean of a list of 3-vectors (zero vector on the empty list). -/
def meanV (l : List V3) : V3 := smul (1 / (l.length : ℝ)) (vsum l)

/-- Modelled from the spec: the motion-excitation metric of a window — the
per-axis sample variance of linear acceleration reduced to a single scalar by
summing the components (one of the reductions the spec names; documented
fixed choice). -/
def exciteMetric (l : List IMUDATA) : ℝ :=
  sumR (l.map (fun d => normSq (vsub d.am (meanV (l.map IMUDATA.am))))) / (l.length : ℝ)

/-- The six-field output of a successful initialization. -/
structure InitResult where
  time0 : ℝ
  q_GtoI0 : Quat4
  b_w0 : V3
  v_I0inG : V3
  b_a0 : V3
  p_I0inG : V3

/-- Modelled from the spec: the State Solver, run on the quiet (prior)
window after a detected rest-to-motion transition.  `time0` is the boundary
instant (the end of the quiet window); the gyro bias is the sample mean of
the angular velocities; the orientation aligns the configured world gravity
direction with the normalized mean measured acceleration; the accelerometer
bias is the magnitude mismatch placed along the measured gravity direction;
velocity and position are zero. -/
def solveState (s : InertialInitializer) : InitResult :=
  { time0 := newestTime s.imu_data - s.window_length
    q_GtoI0 := alignQuat (vnormalize s.gravity)
        (vnormalize (meanV ((window_prior s).map IMUDATA.am)))
    b_w0 := meanV ((window_prior s).map IMUDATA.wm)
    v_I0inG := vzero
    b_a0 := smul (vnorm (meanV ((window_prior s).map IMUDATA.am)) - vnorm s.gravity)
        (vnormalize (meanV ((window_prior s).map IMUDATA.am)))
    p_I0inG := vzero }

/-- Modelled from the spec: the Stillness Detector.  Requires the buffer to
span at least `2 × window_length` seconds, then declares a valid
rest-to-motion transition exactly when the prior window is quiet
(metric strictly below the excitation threshold) and the recent window is
excited (metric at or above the threshold); on success it runs the solver. -/
def attempt_initialize (s : InertialInitializer) : Option InitResult :=
  if s.imu_data = [] then none
  else if newestTime s.imu_data - oldestTime s.imu_data < 2 * s.window_length then none
  else if exciteMetric (window_prior s) < s.imu_excite_threshold ∧
      s.imu_excite_threshold ≤ exciteMetric (window_recent s) then
    some (solveState s)
  else none

/-- The observable outcome of one call of `initialize_with_imu`: the boolean
return value, the post-call object state, and the post-call values of the six
output reference parameters. -/
structure ImuCallOutcome where
  success : Bool
  post : InertialInitializer
  time0 : ℝ
  q_GtoI0 : Quat4
  b_w0 : V3
  v_I0inG : V3
  b_a0 : V3
  p_I0inG : V3

/-- Modelled from the spec: the body of `initialize_with_imu` is not under
`src/` (only its declaration is).  It runs the detector/solver read-only over
the buffer; on success it writes the six output parameters and returns true,
otherwise it leaves them untouched and returns false ("not ready" is a value,
never a thrown fault). -/
def initialize_with_imu (s : InertialInitializer) (time0 : ℝ) (q_GtoI0 : Quat4)
    (b_w0 v_I0inG b_a0 p_I0inG : V3) : ImuCallOutcome :=
  match attempt_initialize s with
  | some r => ⟨true, s, r.time0, r.q_GtoI0, r.b_w0, r.v_I0inG, r.b_a0, r.p_I0inG⟩
  | none => ⟨false, s, time0, q_GtoI0, b_w0, v_I0inG, b_a0, p_I0inG⟩

/-- Concrete sample: rest reading at time 0. -/
def exD1 : IMUDATA := ⟨0, ⟨1, 2, 3⟩, ⟨0, 0, 2⟩⟩

/-- Concrete sample: rest reading at time 1 (the boundary instant). -/
def exD2 : IMUDATA := ⟨1, ⟨3, 4, 5⟩, ⟨0, 0, 2⟩⟩

/-- Concrete sample: excited reading at time 1.5. -/
def exD3 : IMUDATA := ⟨3 / 2, vzero, ⟨0, 0, 6⟩⟩

/-- Concrete sample: excited reading at time 2. -/
def exD4 : IMUDATA := ⟨2, vzero, ⟨0, 0, -2⟩⟩

/-- A concrete buffer: two seconds of data, quiet then excited. -/
def exData : List IMUDATA := [exD1, exD2, exD3, exD4]

/-- A concrete initializer: gravity `(0,0,2)`, window 1 s, threshold 1. -/
def exInit : InertialInitializer := ⟨⟨0, 0, 2⟩, 1, 1, exData⟩

/-- The same buffer with gravity `(0,0,-2)`: the measured body gravity
direction is then the exact negation of the world gravity direction. -/
def exInit2 : InertialInitializer := ⟨⟨0, 0, -2⟩, 1, 1, exData⟩

/-- A concrete initializer with an empty buffer. -/
def exEmpty : InertialInitializer := ⟨⟨0, 0, 2⟩, 1, 1, []⟩

theorem normSq_nonneg (a : V3) : 0 ≤ normSq a := by
  unfold normSq dot
  nlinarith [mul_self_nonneg a.x, mul_self_nonneg a.y, mul_self_nonneg a.z]

theorem normSq_eq_zero_iff (a : V3) : normSq a = 0 ↔ a = vzero := by
  obtain ⟨x, y, z⟩ := a
  simp only [normSq, dot, vzero, V3.mk.injEq]
  constructor
  · intro h
    have hx : x * x = 0 := by nlinarith [mul_self_nonneg x, mul_self_nonneg y, mul_self_nonneg z]
    have hy : y * y = 0 := by nlinarith [mul_self_nonneg x, mul_self_nonneg y, mul_self_nonneg z]
    have hz : z * z = 0 := by nlinarith [mul_self_nonneg x, mul_self_nonneg y, mul_self_nonneg z]
    exact ⟨mul_self_eq_zero.mp hx, mul_self_eq_zero.mp hy, mul_self_eq_zero.mp hz⟩
  · rintro ⟨rfl, rfl, rfl⟩
    ring

theorem normSq_pos_of_ne_zero (a : V3) (h : a ≠ vzero) : 0 < normSq a :=
  lt_of_le_of_ne (normSq_nonneg a) (fun h0 => h ((normSq_eq_zero_iff a).mp h0.symm))

theorem cross_self (a : V3) : cross a a = vzero := by
  unfold cross vzero
  simp only [V3.mk.injEq]
  refine ⟨by ring, by ring, by ring⟩

theorem cross_vneg (a : V3) : cross a (vneg a) = vzero := by
  unfold cross vneg vzero
  simp only [V3.mk.injEq]
  refine ⟨by ring, by ring, by ring⟩

theorem dot_vneg_self (a : V3) : dot a (vneg a) = -normSq a := by
  unfold dot vneg normSq dot
  ring

theorem dot_comm (a b : V3) : dot a b = dot b a := by
  unfold dot
  ring

theorem dot_smul_left (c : ℝ) (a b : V3) : dot (smul c a) b = c * dot a b := by
  unfold dot smul
  ring

theorem cross_smul_self (c : ℝ) (a : V3) : cross (smul c a) a = vzero := by
  unfold cross smul vzero
  simp only [V3.mk.injEq]
  refine ⟨by ring, by ring, by ring⟩

theorem qnormSq_nonneg (q : Quat4) : 0 ≤ qnormSq q := by
  unfold qnormSq
  positivity

theorem qnormSq_qnormalize (q : Quat4) (h : 0 < qnormSq q) :
    qnormSq (qnormalize q) = 1 := by
  have hS : Real.sqrt (qnormSq q) ≠ 0 := (Real.sqrt_pos.mpr h).ne'
  have hkey : ∀ a b c d : ℝ, 0 < qnormSq ⟨a, b, c, d⟩ →
      qnormSq (qnormalize ⟨a, b, c, d⟩) = 1 := by
    intro a b c d hpos
    have hsq : Real.sqrt (qnormSq ⟨a, b, c, d⟩) ^ 2 = qnormSq ⟨a, b, c, d⟩ :=
      Real.sq_sqrt (le_of_lt hpos)
    show qnormSq (qnormalize ⟨a, b, c, d⟩) = 1
    unfold qnormalize
    show (a / Real.sqrt (qnormSq ⟨a, b, c, d⟩)) ^ 2 +
        (b / Real.sqrt (qnormSq ⟨a, b, c, d⟩)) ^ 2 +
        (c / Real.sqrt (qnormSq ⟨a, b, c, d⟩)) ^ 2 +
        (d / Real.sqrt (qnormSq ⟨a, b, c, d⟩)) ^ 2 = 1
    rw [div_pow, div_pow, div_pow, div_pow, hsq]
    have hne : qnormSq ⟨a, b, c, d⟩ ≠ 0 := ne_of_gt hpos
    field_simp
    show a ^ 2 + b ^ 2 + c ^ 2 + d ^ 2 = qnormSq ⟨a, b, c, d⟩
    rfl
  obtain ⟨a, b, c, d⟩ := q
  exact hkey a b c d h

theorem normSq_smul (c : ℝ) (a : V3) : normSq (smul c a) = c ^ 2 * normSq a := by
  unfold normSq dot smul
  ring

theorem normSq_vnormalize (a : V3) (h : a ≠ vzero) : normSq (vnormalize a) = 1 := by
  have hpos : 0 < normSq a := normSq_pos_of_ne_zero a h
  have hsq : Real.sqrt (normSq a) ^ 2 = normSq a := Real.sq_sqrt (le_of_lt hpos)
  have hne : Real.sqrt (normSq a) ≠ 0 := (Real.sqrt_pos.mpr hpos).ne'
  rw [vnormalize, normSq_smul]
  rw [vnorm, one_div, inv_pow, hsq]
  exact inv_mul_cancel₀ (ne_of_gt hpos)

theorem orthoAxis_normSq (v : V3) : normSq (orthoAxis v) = 1 := by
  unfold orthoAxis
  by_cases h : v.x = 0 ∧ v.y = 0
  · rw [if_pos h]
    show (1 : ℝ) * 1 + 0 * 0 + 0 * 0 = 1
    ring
  · rw [if_neg h]
    apply normSq_vnormalize
    intro hz
    have hx : -v.y = 0 ∧ v.x = 0 ∧ (0 : ℝ) = 0 := by
      have := congrArg V3.x hz
      have := congrArg V3.y hz
      exact ⟨by assumption, by assumption, rfl⟩
    exact h ⟨hx.2.1, neg_eq_zero.mp hx.1⟩

theorem orthoAxis_dot (v : V3) : dot (orthoAxis v) v = 0 := by
  unfold orthoAxis
  by_cases h : v.x = 0 ∧ v.y = 0
  · rw [if_pos h]
    show 1 * v.x + 0 * v.y + 0 * v.z = 0
    rw [h.1]; ring
  · rw [if_neg h]
    unfold vnormalize smul dot
    show 1 / vnorm ⟨-v.y, v.x, 0⟩ * (-v.y) * v.x + 1 / vnorm ⟨-v.y, v.x, 0⟩ * v.x * v.y +
        1 / vnorm ⟨-v.y, v.x, 0⟩ * 0 * v.z = 0
    ring

theorem qnormSq_of_vec (w : ℝ) (a : V3) :
    qnormSq ⟨w, a.x, a.y, a.z⟩ = w ^ 2 + normSq a := by
  unfold qnormSq normSq dot
  ring

theorem alignQuat_unit (u v : V3) : qnormSq (alignQuat u v) = 1 := by
  unfold alignQuat
  by_cases h : cross u v = vzero ∧ dot u v < 0
  · rw [if_pos h]
    have := orthoAxis_normSq u
    rw [qnormSq_of_vec 0 (orthoAxis u)]
    rw [this]; ring
  · rw [if_neg h]
    apply qnormSq_qnormalize
    rw [qnormSq_of_vec]
    rcases Classical.em (cross u v = vzero) with hc | hc
    · have hd : 0 ≤ dot u v := by
        by_contra hd
        exact h ⟨hc, lt_of_not_le hd⟩
      have h1 : (1 : ℝ) ≤ (1 + dot u v) ^ 2 := by nlinarith
      have h2 : 0 ≤ normSq (cross u v) := normSq_nonneg _
      linarith
    · have h2 : 0 < normSq (cross u v) := normSq_pos_of_ne_zero _ hc
      have h1 : 0 ≤ (1 + dot u v) ^ 2 := sq_nonneg _
      linarith

theorem alignQuat_self (u : V3) : alignQuat u u = idQuat := by
  unfold alignQuat
  have hnot : ¬(cross u u = vzero ∧ dot u u < 0) := by
    rintro ⟨-, hd⟩
    exact absurd hd (not_lt.mpr (normSq_nonneg u))
  rw [if_neg hnot, cross_self]
  have hpos : (0 : ℝ) < 1 + dot u u := by
    have := normSq_nonneg u
    unfold normSq at this
    linarith
  have hS : qnormSq ⟨1 + dot u u, vzero.x, vzero.y, vzero.z⟩ = (1 + dot u u) ^ 2 := by
    unfold qnormSq vzero
    ring
  unfold qnormalize idQuat
  rw [hS]
  rw [Real.sqrt_sq (le_of_lt hpos)]
  have hne : (1 : ℝ) + dot u u ≠ 0 := ne_of_gt hpos
  show (⟨(1 + dot u u) / (1 + dot u u), vzero.x / (1 + dot u u),
      vzero.y / (1 + dot u u), vzero.z / (1 + dot u u)⟩ : Quat4) = ⟨1, 0, 0, 0⟩
  rw [div_self hne]
  show (⟨1, 0 / (1 + dot u u), 0 / (1 + dot u u), 0 / (1 + dot u u)⟩ : Quat4) = ⟨1, 0, 0, 0⟩
  rw [zero_div]

theorem alignQuat_antiparallel (u : V3) (hu : u ≠ vzero) :
    alignQuat u (vneg u) = ⟨0, (orthoAxis u).x, (orthoAxis u).y, (orthoAxis u).z⟩ := by
  unfold alignQuat
  rw [if_pos]
  constructor
  · exact cross_vneg u
  · rw [dot_vneg_self]
    exact neg_neg_iff_pos.mpr (normSq_pos_of_ne_zero u hu)

theorem attempt_initialize_some (s : InertialInitializer) (r : InitResult)
    (h : attempt_initialize s = some r) : r = solveState s := by
  unfold attempt_initialize at h
  split_ifs at h
  simp_all

theorem initialize_success_iff (s : InertialInitializer) (t0 : ℝ) (q : Quat4)
    (bw v ba p : V3) :
    (initialize_with_imu s t0 q bw v ba p).success = true ↔
      attempt_initialize s = some (solveState s) := by
  rcases hA : attempt_initialize s with _ | r
  · simp [initialize_with_imu, hA]
  · have hr := attempt_initialize_some s r hA
    subst hr
    simp [initialize_with_imu, hA]

theorem initialize_success_outputs (s : InertialInitializer) (t0 : ℝ) (q : Quat4)
    (bw v ba p : V3)
    (h : (initialize_with_imu s t0 q bw v ba p).success = true) :
    initialize_with_imu s t0 q bw v ba p =
      ⟨true, s, (solveState s).time0, (solveState s).q_GtoI0, (solveState s).b_w0,
        (solveState s).v_I0inG, (solveState s).b_a0, (solveState s).p_I0inG⟩ := by
  have hA := (initialize_success_iff s t0 q bw v ba p).mp h
  simp [initialize_with_imu, hA]

theorem ex_newest : newestTime exData = 2 := rfl

theorem ex_oldest : oldestTime exData = 0 := rfl

theorem wp_eval : windowPriorOf 2 1 exData = [exD1, exD2] := by
  norm_num [exData, windowPriorOf, exD1, exD2, exD3, exD4]

theorem wr_eval : windowRecentOf 2 1 exData = [exD3, exD4] := by
  norm_num [exData, windowRecentOf, exD1, exD2, exD3, exD4]

theorem ex_window_prior : window_prior exInit = [exD1, exD2] := by
  unfold window_prior
  rw [show exInit.imu_data = exData from rfl, show exInit.window_length = (1 : ℝ) from rfl,
    ex_newest]
  exact wp_eval

theorem ex_window_recent : window_recent exInit = [exD3, exD4] := by
  unfold window_recent
  rw [show exInit.imu_data = exData from rfl, show exInit.window_length = (1 : ℝ) from rfl,
    ex_newest]
  exact wr_eval

theorem ex2_window_prior : window_prior exInit2 = [exD1, exD2] := by
  unfold window_prior
  rw [show exInit2.imu_data = exData from rfl, show exInit2.window_length = (1 : ℝ) from rfl,
    ex_newest]
  exact wp_eval

theorem ex2_window_recent : window_recent exInit2 = [exD3, exD4] := by
  unfold window_recent
  rw [show exInit2.imu_data = exData from rfl, show exInit2.window_length = (1 : ℝ) from rfl,
    ex_newest]
  exact wr_eval

theorem ex_metric_prior : exciteMetric [exD1, exD2] = 0 := by
  norm_num [exciteMetric, meanV, vsum, vadd, vzero, smul, vsub, normSq, dot, sumR,
    exD1, exD2]

theorem ex_metric_recent : exciteMetric [exD3, exD4] = 16 := by
  norm_num [exciteMetric, meanV, vsum, vadd, vzero, smul, vsub, normSq, dot, sumR,
    exD3, exD4]

theorem ex_attempt : attempt_initialize exInit = some (solveState exInit) := by
  unfold attempt_initialize
  rw [if_neg (by simp [exInit, exData] : ¬(exInit.imu_data = []))]
  rw [if_neg (by
    rw [show exInit.imu_data = exData from rfl, ex_newest, ex_oldest,
      show exInit.window_length = (1 : ℝ) from rfl]
    norm_num)]
  rw [if_pos (by
    rw [ex_window_prior, ex_window_recent, ex_metric_prior, ex_metric_recent,
      show exInit.imu_excite_threshold = (1 : ℝ) from rfl]
    norm_num)]

theorem ex2_attempt : attempt_initialize exInit2 = some (solveState exInit2) := by
  unfold attempt_initialize
  rw [if_neg (by simp [exInit2, exData] : ¬(exInit2.imu_data = []))]
  rw [if_neg (by
    rw [show exInit2.imu_data = exData from rfl, ex_newest, ex_oldest,
      show exInit2.window_length = (1 : ℝ) from rfl]
    norm_num)]
  rw [if_pos (by
    rw [ex2_window_prior, ex2_window_recent, ex_metric_prior, ex_metric_recent,
      show exInit2.imu_excite_threshold = (1 : ℝ) from rfl]
    norm_num)]

theorem ex_success :
    (initialize_with_imu exInit 0 idQuat vzero vzero vzero vzero).success = true := by
  rw [initialize_success_iff]
  exact ex_attempt

theorem ex2_success :
    (initialize_with_imu exInit2 0 idQuat vzero vzero vzero vzero).success = true := by
  rw [initialize_success_iff]
  exact ex2_attempt

theorem ex_quiet_mean : meanV ((window_prior exInit).map IMUDATA.am) = ⟨0, 0, 2⟩ := by
  rw [ex_window_prior]
  norm_num [meanV, vsum, vadd, vzero, smul, exD1, exD2]

theorem ex2_quiet_mean : meanV ((window_prior exInit2).map IMUDATA.am) = ⟨0, 0, 2⟩ := by
  rw [ex2_window_prior]
  norm_num [meanV, vsum, vadd, vzero, smul, exD1, exD2]

theorem ex_empty_attempt : attempt_initialize exEmpty = none := by
  unfold attempt_initialize
  rw [if_pos (show exEmpty.imu_data = [] from rfl)]

theorem ex_empty_fail :
    (initialize_with_imu exEmpty 0 idQuat vzero vzero vzero vzero).success = false := by
  simp [initialize_with_imu, ex_empty_attempt]

theorem trimOld_sublist (tnow h : ℝ) (l : List IMUDATA) :
    List.Sublist (trimOld tnow h l) l := by
  induction l with
  | nil => simp [trimOld]
  | cons d rest ih =>
    unfold trimOld
    by_cases hc : tnow - d.timestamp ≤ h
    · rw [if_pos hc]
      exact List.Sublist.cons₂ d ih
    · rw [if_neg hc]
      exact List.Sublist.cons d ih

theorem mem_trimOld (tnow h : ℝ) (l : List IMUDATA) (d : IMUDATA)
    (hd : d ∈ l) (hc : tnow - d.timestamp ≤ h) : d ∈ trimOld tnow h l := by
  induction l with
  | nil => cases hd
  | cons e rest ih =>
    unfold trimOld
    rcases List.mem_cons.mp hd with he | ht
    · subst he
      rw [if_pos hc]
      exact List.mem_cons_self _ _
    · by_cases hce : tnow - e.timestamp ≤ h
      · rw [if_pos hce]
        exact List.mem_cons_of_mem _ (ih ht)
      · rw [if_neg hce]
        exact ih ht

/-- C1: for a buffer spanning at least `2 × window_length` seconds,
`initialize_with_imu` returns true exactly when the prior window's
acceleration-variance metric is strictly below the excitation threshold
(quiet) and the most recent window's metric is at or above the threshold
(excited); otherwise it returns false. -/
theorem initialize_success_iff_excitation (s : InertialInitializer) (t0 : ℝ)
    (q : Quat4) (bw v ba p : V3) (h1 : s.imu_data ≠ [])
    (h2 : 2 * s.window_length ≤ newestTime s.imu_data - oldestTime s.imu_data) :
    (initialize_with_imu s t0 q bw v ba p).success = true ↔
      (exciteMetric (window_prior s) < s.imu_excite_threshold ∧
        s.imu_excite_threshold ≤ exciteMetric (window_recent s)) := by
  by_cases hc : exciteMetric (window_prior s) < s.imu_excite_threshold ∧
      s.imu_excite_threshold ≤ exciteMetric (window_recent s)
  · have hA : attempt_initialize s = some (solveState s) := by
      unfold attempt_initialize
      rw [if_neg h1, if_neg (not_lt.mpr h2), if_pos hc]
    simp [initialize_with_imu, hA, hc]
  · have hA : attempt_initialize s = none := by
      unfold attempt_initialize
      rw [if_neg h1, if_neg (not_lt.mpr h2), if_neg hc]
    simp [initialize_with_imu, hA, hc]

/-- Witness for C1 at the concrete two-second quiet-then-excited buffer. -/
theorem initialize_success_iff_excitation_witness :
    (initialize_with_imu exInit 0 idQuat vzero vzero vzero vzero).success = true ↔
      (exciteMetric (window_prior exInit) < exInit.imu_excite_threshold ∧
        exInit.imu_excite_threshold ≤ exciteMetric (window_recent exInit)) :=
  initialize_success_iff_excitation exInit 0 idQuat vzero vzero vzero vzero
    (by simp [exInit, exData])
    (by
      rw [show exInit.imu_data = exData from rfl, ex_newest, ex_oldest,
        show exInit.window_length = (1 : ℝ) from rfl]
      norm_num)

/-- C2: on success, the returned `time0` is the boundary instant at the end
of the prior (quiet) window, and (for a positive window length) it is not
the newest buffered timestamp. -/
theorem time0_at_quiet_boundary (s : InertialInitializer) (t0 : ℝ) (q : Quat4)
    (bw v ba p : V3)
    (h : (initialize_with_imu s t0 q bw v ba p).success = true)
    (hwl : 0 < s.window_length) :
    (initialize_with_imu s t0 q bw v ba p).time0 =
      newestTime s.imu_data - s.window_length ∧
    (initialize_with_imu s t0 q bw v ba p).time0 ≠ newestTime s.imu_data := by
  rw [initialize_success_outputs s t0 q bw v ba p h]
  refine ⟨rfl, ?_⟩
  show newestTime s.imu_data - s.window_length ≠ newestTime s.imu_data
  intro he
  exact absurd (sub_eq_self.mp he) (ne_of_gt hwl)

/-- Witness for C2 at the concrete two-second quiet-then-excited buffer. -/
theorem time0_at_quiet_boundary_witness :
    (initialize_with_imu exInit 0 idQuat vzero vzero vzero vzero).time0 =
      newestTime exInit.imu_data - exInit.window_length ∧
    (initialize_with_imu exInit 0 idQuat vzero vzero vzero vzero).time0 ≠
      newestTime exInit.imu_data :=
  time0_at_quiet_boundary exInit 0 idQuat vzero vzero vzero vzero ex_success
    (by norm_num [exInit])

/-- C3: on success the returned orientation is a unit quaternion, and in the
degenerate case where the measured body gravity direction is the exact
negation of the configured world gravity direction it is a 180-degree
rotation (zero scalar part) about an axis orthogonal to gravity.  In this
exact real-arithmetic model every output field is automatically a finite
real number. -/
theorem orientation_unit_and_degenerate (s : InertialInitializer) (t0 : ℝ)
    (q : Quat4) (bw v ba p : V3)
    (h : (initialize_with_imu s t0 q bw v ba p).success = true) :
    qnormSq ((initialize_with_imu s t0 q bw v ba p).q_GtoI0) = 1 ∧
    ((vnormalize (meanV ((window_prior s).map IMUDATA.am)) =
        vneg (vnormalize s.gravity) ∧ vnormalize s.gravity ≠ vzero) →
      ((initialize_with_imu s t0 q bw v ba p).q_GtoI0).w = 0 ∧
      dot (qvec ((initialize_with_imu s t0 q bw v ba p).q_GtoI0))
        (vnormalize s.gravity) = 0) := by
  rw [initialize_success_outputs s t0 q bw v ba p h]
  constructor
  · exact alignQuat_unit _ _
  · rintro ⟨hanti, hnz⟩
    have hq : (solveState s).q_GtoI0 =
        ⟨0, (orthoAxis (vnormalize s.gravity)).x, (orthoAxis (vnormalize s.gravity)).y,
          (orthoAxis (vnormalize s.gravity)).z⟩ := by
      show alignQuat (vnormalize s.gravity)
          (vnormalize (meanV ((window_prior s).map IMUDATA.am))) = _
      rw [hanti]
      exact alignQuat_antiparallel _ hnz
    rw [hq]
    exact ⟨rfl, orthoAxis_dot (vnormalize s.gravity)⟩

/-- Witness for C3 at a concrete successful call whose measured gravity
direction is the exact negation of the configured world gravity direction. -/
theorem orientation_unit_and_degenerate_witness :
    qnormSq ((initialize_with_imu exInit2 0 idQuat vzero vzero vzero vzero).q_GtoI0) = 1 ∧
    ((vnormalize (meanV ((window_prior exInit2).map IMUDATA.am)) =
        vneg (vnormalize exInit2.gravity) ∧ vnormalize exInit2.gravity ≠ vzero) →
      ((initialize_with_imu exInit2 0 idQuat vzero vzero vzero vzero).q_GtoI0).w = 0 ∧
      dot (qvec ((initialize_with_imu exInit2 0 idQuat vzero vzero vzero vzero).q_GtoI0))
        (vnormalize exInit2.gravity) = 0) :=
  orientation_unit_and_degenerate exInit2 0 idQuat vzero vzero vzero vzero ex2_success

/-- C4: on success, if the configured world gravity direction exactly equals
the measured body gravity direction (the normalized mean linear acceleration
over the quiet window), the returned orientation is the identity rotation. -/
theorem alignment_identity_on_equal_directions (s : InertialInitializer)
    (t0 : ℝ) (q : Quat4) (bw v ba p : V3)
    (h : (initialize_with_imu s t0 q bw v ba p).success = true)
    (hdir : vnormalize s.gravity =
      vnormalize (meanV ((window_prior s).map IMUDATA.am))) :
    (initialize_with_imu s t0 q bw v ba p).q_GtoI0 = idQuat := by
  rw [initialize_success_outputs s t0 q bw v ba p h]
  show alignQuat (vnormalize s.gravity)
      (vnormalize (meanV ((window_prior s).map IMUDATA.am))) = idQuat
  rw [← hdir]
  exact alignQuat_self _

/-- Witness for C4: at the concrete buffer the quiet-window mean acceleration
is exactly the configured gravity vector, and the orientation is identity. -/
theorem alignment_identity_on_equal_directions_witness :
    (initialize_with_imu exInit 0 idQuat vzero vzero vzero vzero).q_GtoI0 = idQuat :=
  alignment_identity_on_equal_directions exInit 0 idQuat vzero vzero vzero vzero
    ex_success (by
      rw [ex_quiet_mean]
      rfl)


/-- C5: on success, the returned gyro bias is the sample mean of the
angular-velocity readings over the quiet (prior) window. -/
theorem gyro_bias_is_quiet_window_mean (s : InertialInitializer) (t0 : ℝ)
    (q : Quat4) (bw v ba p : V3)
    (h : (initialize_with_imu s t0 q bw v ba p).success = true) :
    (initialize_with_imu s t0 q bw v ba p).b_w0 =
      meanV ((window_prior s).map IMUDATA.wm) := by
  rw [initialize_success_outputs s t0 q bw v ba p h]
  rfl

/-- Witness for C5 at the concrete two-second quiet-then-excited buffer. -/
theorem gyro_bias_is_quiet_window_mean_witness :
    (initialize_with_imu exInit 0 idQuat vzero vzero vzero vzero).b_w0 =
      meanV ((window_prior exInit).map IMUDATA.wm) :=
  gyro_bias_is_quiet_window_mean exInit 0 idQuat vzero vzero vzero vzero ex_success

/-- C6: on success, the returned accelerometer bias is the scalar
(mean measured acceleration magnitude − configured gravity magnitude)
placed along the recovered gravity direction; its cross product with that
direction vanishes and it is orthogonal to every vector perpendicular to
that direction (zero perpendicular components). -/
theorem accel_bias_along_gravity_direction (s : InertialInitializer) (t0 : ℝ)
    (q : Quat4) (bw v ba p : V3)
    (h : (initialize_with_imu s t0 q bw v ba p).success = true) :
    (initialize_with_imu s t0 q bw v ba p).b_a0 =
      smul (vnorm (meanV ((window_prior s).map IMUDATA.am)) - vnorm s.gravity)
        (vnormalize (meanV ((window_prior s).map IMUDATA.am))) ∧
    cross ((initialize_with_imu s t0 q bw v ba p).b_a0)
      (vnormalize (meanV ((window_prior s).map IMUDATA.am))) = vzero ∧
    ∀ u : V3, dot u (vnormalize (meanV ((window_prior s).map IMUDATA.am))) = 0 →
      dot ((initialize_with_imu s t0 q bw v ba p).b_a0) u = 0 := by
  rw [initialize_success_outputs s t0 q bw v ba p h]
  refine ⟨rfl, ?_, ?_⟩
  · exact cross_smul_self _ _
  · intro u hu
    show dot (smul (vnorm (meanV ((window_prior s).map IMUDATA.am)) - vnorm s.gravity)
        (vnormalize (meanV ((window_prior s).map IMUDATA.am)))) u = 0
    rw [dot_smul_left, dot_comm, hu, mul_zero]

/-- Witness for C6 at the concrete two-second quiet-then-excited buffer. -/
theorem accel_bias_along_gravity_direction_witness :
    (initialize_with_imu exInit 0 idQuat vzero vzero vzero vzero).b_a0 =
      smul (vnorm (meanV ((window_prior exInit).map IMUDATA.am)) - vnorm exInit.gravity)
        (vnormalize (meanV ((window_prior exInit).map IMUDATA.am))) ∧
    cross ((initialize_with_imu exInit 0 idQuat vzero vzero vzero vzero).b_a0)
      (vnormalize (meanV ((window_prior exInit).map IMUDATA.am))) = vzero ∧
    ∀ u : V3, dot u (vnormalize (meanV ((window_prior exInit).map IMUDATA.am))) = 0 →
      dot ((initialize_with_imu exInit 0 idQuat vzero vzero vzero vzero).b_a0) u = 0 :=
  accel_bias_along_gravity_direction exInit 0 idQuat vzero vzero vzero vzero ex_success

/-- C7: on success, the returned velocity and position are exactly the zero
3-vector. -/
theorem velocity_position_zero (s : InertialInitializer) (t0 : ℝ) (q : Quat4)
    (bw v ba p : V3)
    (h : (initialize_with_imu s t0 q bw v ba p).success = true) :
    (initialize_with_imu s t0 q bw v ba p).v_I0inG = vzero ∧
    (initialize_with_imu s t0 q bw v ba p).p_I0inG = vzero := by
  rw [initialize_success_outputs s t0 q bw v ba p h]
  exact ⟨rfl, rfl⟩

/-- Witness for C7 at the concrete two-second quiet-then-excited buffer. -/
theorem velocity_position_zero_witness :
    (initialize_with_imu exInit 0 idQuat vzero vzero vzero vzero).v_I0inG = vzero ∧
    (initialize_with_imu exInit 0 idQuat vzero vzero vzero vzero).p_I0inG = vzero :=
  velocity_position_zero exInit 0 idQuat vzero vzero vzero vzero ex_success

/-- C8: on a buffer spanning strictly less than `2 × window_length` seconds
(the empty buffer included), every call returns false as a value; the model
is a total function, so no exception or abort is possible. -/
theorem insufficient_data_returns_false (s : InertialInitializer) (t0 : ℝ)
    (q : Quat4) (bw v ba p : V3)
    (h : s.imu_data = [] ∨
      newestTime s.imu_data - oldestTime s.imu_data < 2 * s.window_length) :
    (initialize_with_imu s t0 q bw v ba p).success = false := by
  have hA : attempt_initialize s = none := by
    unfold attempt_initialize
    by_cases he : s.imu_data = []
    · rw [if_pos he]
    · rw [if_neg he, if_pos (h.resolve_left he)]
  simp [initialize_with_imu, hA]

/-- Witness for C8 at the concrete empty buffer. -/
theorem insufficient_data_returns_false_witness :
    (initialize_with_imu exEmpty 0 idQuat vzero vzero vzero vzero).success = false :=
  insufficient_data_returns_false exEmpty 0 idQuat vzero vzero vzero vzero (Or.inl rfl)

/-- C9: a `feed_imu` call at a timestamp no older than every buffered sample
preserves ascending timestamp order, and retains every sample (old or newly
fed) whose timestamp is within `2 × window_length` seconds of the newest
timestamp: eviction removes only entries behind the retention horizon. -/
theorem feed_preserves_order_and_retention (s : InertialInitializer) (t : ℝ)
    (w a : V3)
    (hsorted : List.Pairwise (fun d e => d.timestamp ≤ e.timestamp) s.imu_data)
    (hmono : ∀ d ∈ s.imu_data, d.timestamp ≤ t) :
    List.Pairwise (fun d e => d.timestamp ≤ e.timestamp) (feed_imu s t w a).imu_data ∧
    ∀ d ∈ s.imu_data ++ [⟨t, w, a⟩], t - d.timestamp ≤ 2 * s.window_length →
      d ∈ (feed_imu s t w a).imu_data := by
  constructor
  · show List.Pairwise (fun d e => d.timestamp ≤ e.timestamp)
      (trimOld t (2 * s.window_length) (s.imu_data ++ [⟨t, w, a⟩]))
    apply List.Pairwise.sublist (trimOld_sublist _ _ _)
    rw [List.pairwise_append]
    refine ⟨hsorted, List.pairwise_singleton _ _, ?_⟩
    intro d hd e he
    rw [List.mem_singleton] at he
    subst he
    exact hmono d hd
  · intro d hd hc
    show d ∈ trimOld t (2 * s.window_length) (s.imu_data ++ [⟨t, w, a⟩])
    exact mem_trimOld _ _ _ _ hd hc

/-- Witness for C9: feeding a new sample at time 3 into the concrete sorted
buffer keeps it sorted and retains everything within the horizon. -/
theorem feed_preserves_order_and_retention_witness :
    List.Pairwise (fun d e => d.timestamp ≤ e.timestamp)
      (feed_imu exInit 3 vzero vzero).imu_data ∧
    ∀ d ∈ exInit.imu_data ++ [⟨3, vzero, vzero⟩],
      3 - d.timestamp ≤ 2 * exInit.window_length →
      d ∈ (feed_imu exInit 3 vzero vzero).imu_data :=
  feed_preserves_order_and_retention exInit 3 vzero vzero
    (by
      rw [show exInit.imu_data = exData from rfl]
      norm_num [exData, exD1, exD2, exD3, exD4, List.pairwise_cons])
    (by
      rw [show exInit.imu_data = exData from rfl]
      intro d hd
      simp only [exData, List.mem_cons, List.not_mem_nil, or_false] at hd
      rcases hd with h | h | h | h <;> subst h <;> norm_num [exD1, exD2, exD3, exD4])

/-- C10: whenever `initialize_with_imu` returns false, the six output
reference parameters keep exactly the values they had at the call and the
stored buffer (the whole object state) is unchanged. -/
theorem failure_leaves_outputs_unchanged (s : InertialInitializer) (t0 : ℝ)
    (q : Quat4) (bw v ba p : V3)
    (h : (initialize_with_imu s t0 q bw v ba p).success = false) :
    initialize_with_imu s t0 q bw v ba p = ⟨false, s, t0, q, bw, v, ba, p⟩ := by
  rcases hA : attempt_initialize s with _ | r
  · simp [initialize_with_imu, hA]
  · exfalso
    have htrue : (initialize_with_imu s t0 q bw v ba p).success = true := by
      simp [initialize_with_imu, hA]
    simp_all

/-- Witness for C10 at the concrete empty buffer: the failing call returns
every input untouched. -/
theorem failure_leaves_outputs_unchanged_witness :
    initialize_with_imu exEmpty 0 idQuat vzero vzero vzero vzero =
      ⟨false, exEmpty, 0, idQuat, vzero, vzero, vzero, vzero⟩ :=
  failure_leaves_outputs_unchanged exEmpty 0 idQuat vzero vzero vzero vzero ex_empty_fail

end OVCore

